import Mathlib

/-!
# Shallow embedding of `api/index.py` (pdf_sign_demo Flask service)

The service keeps its state in a temp directory:
  * `docs/<doc_id>.pdf`        — stored PDFs,
  * `renders/<doc_id>_p<n>.png`— rendered page images,
  * `meta/<doc_id>.json`       — `{original_filename, uploaded_at}`,
  * `current.json`             — pointer `{doc_id, updated_at, filename}`,
  * `history.json`             — list of `{doc_id, filename, signed_at}`.

We model those files explicitly.  Byte strings are `List Nat`; timestamps
(`utc_iso()`) are threaded in as a `now : String` argument; the external
libraries (PyMuPDF rasterisation, qrcode, `base64.b64decode`) are abstracted:
a PDF is its page count, rendering records only the produced file names, and
the base64 decoder is a parameter `b64 : String → Option Bytes` (failure =
the `binascii` exception caught by the source).  File writes guarded by
`try/except: pass` in the source are modelled as succeeding: the `except`
arms only swallow environmental I/O errors.
-/

namespace PdfSignDemo

/-- A byte string (`bytes` in Python), as the list of its byte values. -/
abbrev Bytes := List Nat

/-- A stored PDF document, abstracted to its number of pages
(all the source ever does with PyMuPDF is iterate over the pages). -/
structure Pdf where
  numPages : Nat
deriving DecidableEq, Repr

/-- Contents of a `meta/<doc_id>.json` file.  `corrupt`: present but
`json.loads` fails; `parsed of`: the value of the `original_filename`
key when it is a string (`none` when the key is absent). -/
inductive MetaState where
  | corrupt
  | parsed (original_filename : Option String)
deriving DecidableEq, Repr

/-- Contents of the `current.json` pointer file.  `parsed` carries the
`doc_id` field (when it is a string; `""` is possible), plus the
`updated_at` and `filename` fields. -/
inductive CurrentFile where
  | missing
  | corrupt
  | parsed (doc_id : Option String) (updated_at : Option String)
      (filename : Option String)
deriving DecidableEq, Repr

/-- One entry of `history.json`. -/
structure HistEntry where
  doc_id : String
  filename : String
  signed_at : String
deriving DecidableEq, Repr

/-- Contents of the `history.json` file. -/
inductive HistoryFile where
  | missing
  | corrupt
  | parsed (items : List HistEntry)
deriving DecidableEq, Repr

/-- The whole on-disk state of the service under `TMP_ROOT`. -/
structure ServerState where
  /-- Embeds `docs/` directory: `doc_id ↦ <doc_id>.pdf`. -/
  docs : List (String × Pdf)
  /-- Embeds `renders/` directory: the PNG file names present. -/
  renders : List String
  /-- Embeds `meta/` directory: `doc_id ↦ <doc_id>.json`. -/
  metas : List (String × MetaState)
  currentFile : CurrentFile
  historyFile : HistoryFile
deriving DecidableEq, Repr

/-- First binding of a key in an association list (a directory lookup). -/
def lookupD {α : Type} (l : List (String × α)) (k : String) : Option α :=
  (l.find? (fun p => p.1 == k)).map (·.2)

/-- Write a file: replace the binding of `k` if present, else add it. -/
def setD {α : Type} (l : List (String × α)) (k : String) (v : α) :
    List (String × α) :=
  l.filter (fun p => p.1 ≠ k) ++ [(k, v)]

/-- Embeds `ALLOWED_EXT = {"pdf"}`; `allowed_file` checks
`"." in filename and filename.rsplit(".", 1)[1].lower() in ALLOWED_EXT`. -/
def afterLastDot (cs : List Char) : List Char :=
  (cs.reverse.takeWhile (· ≠ '.')).reverse

def allowed_file (filename : String) : Bool :=
  filename.toList.contains '.' &&
    (afterLastDot filename.toList).map Char.toLower == "pdf".toList

/-- The sixteen characters accepted by `safe_doc_id`. -/
def hexDigits : List Char := "0123456789abcdef".toList

def validDocId (doc_id : String) : Bool :=
  !(doc_id == "") && doc_id.toList.all (fun c => hexDigits.contains c)

/-- Embeds `safe_doc_id`: returns the id, or `none` for `abort(400, "Invalid doc_id")`. -/
def safe_doc_id (doc_id : String) : Option String :=
  if validDocId doc_id then some doc_id else none

/-- Does `name` match the glob `f"{doc_id}_p*.png"` used by `cleanup_doc_files`? -/
def renderGlobMatch (doc_id name : String) : Bool :=
  let pre := (doc_id ++ "_p").toList
  let suf := ".png".toList
  let n := name.toList
  decide (pre.length + suf.length ≤ n.length) &&
    n.take pre.length == pre &&
    n.drop (n.length - suf.length) == suf

/-- Embeds `cleanup_doc_files`: unlink `docs/<doc_id>.pdf`, every render matching
`<doc_id>_p*.png`, and `meta/<doc_id>.json`. -/
def cleanup_doc_files (doc_id : String) (s : ServerState) : ServerState :=
  { s with
    docs := s.docs.filter (fun p => p.1 ≠ doc_id),
    renders := s.renders.filter (fun n => !(renderGlobMatch doc_id n)),
    metas := s.metas.filter (fun p => p.1 ≠ doc_id) }

/-- The name `f"{doc_id}_p{i+1}.png"` given to the render of page `i`. -/
def renderName (doc_id : String) (n : Nat) : String :=
  doc_id ++ "_p" ++ toString n ++ ".png"

/-- One `{"idx": i, "name": png_name}` record returned by
`render_pdf_pages_to_pngs`. -/
structure PageRec where
  idx : Nat
  name : String
deriving DecidableEq, Repr

def pageRecs (doc_id : String) (numPages : Nat) : List PageRec :=
  (List.range numPages).map (fun i => ⟨i, renderName doc_id (i + 1)⟩)

/-- Saving a pixmap overwrites the file, so the directory gains the name
at most once. -/
def addRender (renders : List String) (name : String) : List String :=
  if renders.contains name then renders else renders ++ [name]

/-- Embeds `render_pdf_pages_to_pngs`: `none` models `abort(404, "PDF not found")`;
otherwise one PNG per page is saved and the records returned. -/
def render_pdf_pages_to_pngs (doc_id : String) (s : ServerState) :
    Option (List PageRec × ServerState) :=
  match lookupD s.docs doc_id with
  | none => none
  | some pdf =>
    let recs := pageRecs doc_id pdf.numPages
    some (recs, { s with
      renders := recs.foldl (fun acc r => addRender acc r.name) s.renders })

/-- Embeds `get_current_doc_id`: read `current.json`; any exception — including the
`abort(400)` that `safe_doc_id` raises on an invalid id, since the call sits
inside the `try` — yields `None`; so does a missing, non-string or empty
`doc_id` field. -/
def get_current_doc_id (s : ServerState) : Option String :=
  match s.currentFile with
  | .missing => none
  | .corrupt => none
  | .parsed doc_id? _ _ =>
    match doc_id? with
    | some d => if d ≠ "" then safe_doc_id d else none
    | none => none

/-- Embeds `set_current_doc_id`: write `{doc_id, updated_at, filename}` where
`filename` is `original_filename or None`. -/
def set_current_doc_id (doc_id : String) (original_filename : Option String)
    (now : String) (s : ServerState) : ServerState :=
  let fn : Option String :=
    match original_filename with
    | some f => if f = "" then none else some f
    | none => none
  { s with currentFile := CurrentFile.parsed (some doc_id) (some now) fn }

/-- Embeds `clear_current_if`: unlink the pointer file when it names `doc_id`. -/
def clear_current_if (doc_id : String) (s : ServerState) : ServerState :=
  match get_current_doc_id s with
  | some cur => if cur = doc_id then { s with currentFile := .missing } else s
  | none => s

/-- Embeds `load_history`: `[]` when the file is missing or `json.loads` fails. -/
def load_history (s : ServerState) : List HistEntry :=
  match s.historyFile with
  | .parsed items => items
  | _ => []

/-- Embeds `save_history`: write the list back to `history.json`. -/
def save_history (items : List HistEntry) (s : ServerState) : ServerState :=
  { s with historyFile := .parsed items }

/-- The sort relation of `sorted(items, key=lambda x: x.get("signed_at", ""),
reverse=True)`: descending by `signed_at`. -/
def histGESignedAt (a b : HistEntry) : Prop := b.signed_at ≤ a.signed_at

instance : DecidableRel histGESignedAt := fun a b =>
  inferInstanceAs (Decidable (b.signed_at ≤ a.signed_at))

instance : IsTotal HistEntry histGESignedAt :=
  ⟨fun a b => (le_total b.signed_at a.signed_at).imp id id⟩

instance : IsTrans HistEntry histGESignedAt :=
  ⟨fun _ _ _ h h' => le_trans h' h⟩

/-- The filename recorded by `add_history_entry`: the meta file's
`original_filename` when the file exists, parses and the value is truthy,
else `f"{doc_id}.pdf"`. -/
def historyFilename (doc_id : String) (s : ServerState) : String :=
  match lookupD s.metas doc_id with
  | some (.parsed (some f)) => if f = "" then doc_id ++ ".pdf" else f
  | _ => doc_id ++ ".pdf"

/-- Embeds `add_history_entry`: append `{doc_id, filename, signed_at}` to the loaded
history, re-sort descending by `signed_at` (Python's stable sort), save,
then unlink the meta file. -/
def add_history_entry (doc_id now : String) (s : ServerState) : ServerState :=
  let entry : HistEntry :=
    { doc_id := doc_id, filename := historyFilename doc_id s, signed_at := now }
  let items := load_history s ++ [entry]
  let s := save_history (items.insertionSort histGESignedAt) s
  { s with metas := s.metas.filter (fun p => p.1 ≠ doc_id) }

/-! ## Request model for `POST /api/sign/<doc_id>` -/

/-- One uploaded form part: its field key and the bytes `storage.read()`
returns. -/
structure FilePart where
  key : String
  contents : Bytes
deriving DecidableEq, Repr

/-- One element of the JSON fallback's `pages` array (a dict).
`index` is the value of `int(item.get("index", -1))`: `some i` when the
conversion succeeds (a missing key gives `some (-1)`), `none` when `int`
raises.  `dataURL` is the `dataURL` field when it is a string (a missing
key gives `some ""`), `none` when it is present but not a string. -/
structure JsonPageItem where
  index : Option Int
  dataURL : Option String
deriving DecidableEq, Repr

/-- The body of a sign request: a `multipart/form-data` content type takes
the first branch of `_collect_pages_from_request`, anything else the JSON
fallback (`get_json(silent=True) or {}`, with `payload.get("pages", [])`). -/
inductive SignRequest where
  | multipart (files : List FilePart)
  | jsonBody (pages : List JsonPageItem)
deriving DecidableEq, Repr

/-- Python's `int(str)` on the tail of a `page_<i>` key: optional sign then
decimal digits. -/
def parseInt? (t : String) : Option Int :=
  let digitsVal (cs : List Char) : Nat :=
    cs.foldl (fun acc c => acc * 10 + (c.toNat - '0'.toNat)) 0
  match t.toList with
  | [] => none
  | '-' :: rest =>
    if rest ≠ [] ∧ rest.all Char.isDigit then some (-(digitsVal rest : Int))
    else none
  | '+' :: rest =>
    if rest ≠ [] ∧ rest.all Char.isDigit then some (digitsVal rest : Int)
    else none
  | cs =>
    if cs.all Char.isDigit then some (digitsVal cs : Int) else none

/-- For a key starting with `page_`, `int(key.split("_", 1)[1])` (the first
`_` of such a key is the one after `page`); `none` when the key does not
start with `page_` (`continue`) or `int` raises (`continue`). -/
def pageKeyIndex (key : String) : Option Int :=
  if key.toList.take 5 = "page_".toList then
    parseInt? (String.mk (key.toList.drop 5))
  else none

/-- The `data:image/png;base64,` prefix required of a `dataURL`. -/
def dataUrlPre : String := "data:image/png;base64,"

/-- Embeds `_collect_pages_from_request`, parameterised by the base64 decoder
(`b64 u = none` models `base64.b64decode` raising).  Multipart parts need
non-empty bytes (`if png_bytes:`); the JSON branch keeps whatever decodes,
empty or not.  `split(",", 1)[1]` of a string with the prefix is the part
after the prefix's comma, its first. -/
def _collect_pages_from_request (b64 : String → Option Bytes) :
    SignRequest → List (Int × Bytes)
  | .multipart files =>
    files.filterMap (fun f =>
      match pageKeyIndex f.key with
      | none => none
      | some idx => if f.contents ≠ [] then some (idx, f.contents) else none)
  | .jsonBody pages =>
    pages.filterMap (fun it =>
      match it.index with
      | none => none
      | some idx =>
        match it.dataURL with
        | none => none
        | some u =>
          if u.toList.take dataUrlPre.length = dataUrlPre.toList then
            match b64 (String.mk (u.toList.drop dataUrlPre.length)) with
            | some bs => some (idx, bs)
            | none => none
          else none)

/-! ## Route handlers -/

/-- A JSON body `jsonify({...})` of `api_sign`, with its HTTP status. -/
structure JsonResp where
  status : Nat
  ok : Bool
  error : Option String
  message : Option String
deriving DecidableEq, Repr

/-- The result of `POST /api/sign/<doc_id>`: either a Flask `abort`
(from `safe_doc_id`) or a JSON response. -/
inductive ApiSignResult where
  | abort (status : Nat) (msg : String)
  | json (r : JsonResp)
deriving DecidableEq, Repr

/-- Embeds `api_sign`: validate the id, 404 if no stored PDF, 400 if no pages or
only small (≤ 2000-byte) overlays, else add the history entry, clear the
current pointer if it named this doc, delete the doc's files, and confirm. -/
def api_sign (b64 : String → Option Bytes) (doc_id now : String)
    (req : SignRequest) (s : ServerState) : ApiSignResult × ServerState :=
  match safe_doc_id doc_id with
  | none => (.abort 400 "Invalid doc_id", s)
  | some did =>
    if (lookupD s.docs did).isNone then
      (.json ⟨404, false, some "PDF not found", none⟩, s)
    else
      let pages := _collect_pages_from_request b64 req
      if pages.isEmpty then
        (.json ⟨400, false, some "No signature data received", none⟩, s)
      else if !(pages.any (fun p => decide (2000 < p.2.length))) then
        (.json ⟨400, false, some "Signature looks empty", none⟩, s)
      else
        let s := add_history_entry did now s
        let s := clear_current_if did s
        let s := cleanup_doc_files did s
        (.json ⟨200, true, none, some "Dokument został podpisany."⟩, s)

/-- A `POST /upload` request: either the `file` field is absent from
`request.files`, or it holds a file with a name and PDF contents.
`if not f or not f.filename` collapses to an empty filename check, a
`FileStorage`'s truth value being that of its filename. -/
inductive UploadRequest where
  | noFileField
  | file (filename : String) (contents : Pdf)
deriving DecidableEq, Repr

/-- The result of `POST /upload`: an `abort`, or the rendered `share.html`
for the fresh document id. -/
inductive UploadResult where
  | abort (status : Nat) (msg : String)
  | shared (doc_id : String)
deriving DecidableEq, Repr

/-- Embeds `uuid.uuid4().hex[:12]`: the first twelve characters of the uuid's
32-character lowercase hex string. -/
def genDocId (uuidHex : String) : String :=
  String.mk (uuidHex.toList.take 12)

/-- Embeds `upload`: reject a missing field, empty filename or non-PDF name;
otherwise clean up the previous current document, save the PDF under a
fresh id, write the meta file, and point `current.json` at the new doc. -/
def upload (req : UploadRequest) (uuidHex now : String) (s : ServerState) :
    UploadResult × ServerState :=
  match req with
  | .noFileField => (.abort 400 "No file field", s)
  | .file filename contents =>
    if filename = "" then (.abort 400 "No file selected", s)
    else if !(allowed_file filename) then (.abort 400 "Only PDF allowed", s)
    else
      let s := match get_current_doc_id s with
        | some old => cleanup_doc_files old s
        | none => s
      let doc_id := genDocId uuidHex
      let s := { s with docs := setD s.docs doc_id contents }
      let s := { s with
        metas := setD s.metas doc_id (.parsed (some filename)) }
      let s := set_current_doc_id doc_id (some filename) now s
      (.shared doc_id, s)

/-- The state `upload` leaves behind on success: previous current document
cleaned up, the PDF saved under the fresh id, the meta file written, and
the pointer set. -/
def uploadPostState (filename : String) (pdf : Pdf) (uuidHex now : String)
    (s : ServerState) : ServerState :=
  let s1 := match get_current_doc_id s with
    | some old => cleanup_doc_files old s
    | none => s
  let d := genDocId uuidHex
  let s2 := { s1 with docs := setD s1.docs d pdf }
  let s3 := { s2 with metas := setD s2.metas d (.parsed (some filename)) }
  set_current_doc_id d (some filename) now s3

/-- The result of `GET /sign/<doc_id>`: an `abort`, or the rendered
`sign.html` with the page records. -/
inductive SignPageResult where
  | abort (status : Nat) (msg : String)
  | page (doc_id : String) (pages : List PageRec)
deriving DecidableEq, Repr

/-- Embeds `sign`: validate the id, render the pages (404 when no PDF), show them. -/
def sign (doc_id : String) (s : ServerState) : SignPageResult × ServerState :=
  match safe_doc_id doc_id with
  | none => (.abort 400 "Invalid doc_id", s)
  | some did =>
    match render_pdf_pages_to_pngs did s with
    | none => (.abort 404 "PDF not found", s)
    | some (pages, s') => (.page did pages, s')

/-- The result of `GET /sign/current`: the upload page when no current doc,
else whatever `sign` returns for the current id. -/
inductive SignCurrentResult where
  | uploadPage
  | abort (status : Nat) (msg : String)
  | page (doc_id : String) (pages : List PageRec)
deriving DecidableEq, Repr

/-- Embeds `sign_current`: delegate to `sign` on the current doc id, if any. -/
def sign_current (s : ServerState) : SignCurrentResult × ServerState :=
  match get_current_doc_id s with
  | none => (.uploadPage, s)
  | some d =>
    match sign d s with
    | (.abort st m, s') => (.abort st m, s')
    | (.page did ps, s') => (.page did ps, s')

/-- The result of `GET /qr/<doc_id>`: an `abort`, or a QR PNG encoding the
sign URL of the given doc. -/
inductive QrResult where
  | abort (status : Nat) (msg : String)
  | png (target_doc_id : String)
deriving DecidableEq, Repr

/-- Embeds `qr`: validate the id, then serve the QR image for its sign URL
(the handler reads no state). -/
def qr (doc_id : String) : QrResult :=
  match safe_doc_id doc_id with
  | none => .abort 400 "Invalid doc_id"
  | some did => .png did

/-! ## Helper lemmas -/

theorem validDocId_iff (d : String) :
    validDocId d = true ↔ d ≠ "" ∧ ∀ c ∈ d.toList, c ∈ hexDigits := by
  simp [validDocId, List.all_eq_true]

theorem lookupD_filter_self {α : Type} (l : List (String × α)) (k : String) :
    lookupD (l.filter (fun p => p.1 ≠ k)) k = none := by
  unfold lookupD
  rw [List.find?_eq_none.mpr, Option.map_none']
  intro x hx
  have := (List.mem_filter.mp hx).2
  simp_all

theorem lookupD_filter_of_ne {α : Type} (l : List (String × α))
    (q : String × α → Bool) (k : String) (h : ∀ x ∈ l, x.1 = k → q x = true) :
    lookupD (l.filter q) k = lookupD l k := by
  unfold lookupD
  congr 1
  induction l with
  | nil => rfl
  | cons a t ih =>
    by_cases hk : a.1 = k
    · rw [List.filter_cons_of_pos (h a (List.mem_cons_self _ _) hk)]
      simp [List.find?_cons, hk]
    · have hfind : (a.1 == k) = false := by simp [hk]
      have ih' := ih (fun x hx => h x (List.mem_cons_of_mem _ hx))
      by_cases hq : q a = true
      · rw [List.filter_cons_of_pos hq]
        simp [List.find?_cons, hfind, ih']
      · rw [List.filter_cons_of_neg (by simp_all)]
        simp [List.find?_cons, hfind, ih']

theorem renderGlobMatch_renderName (d : String) (n : Nat) :
    renderGlobMatch d (renderName d n) = true := by
  unfold renderGlobMatch renderName
  have hdata : (d ++ "_p" ++ toString n ++ ".png").toList
      = (d ++ "_p").toList ++ ((toString n).toList ++ ".png".toList) := by
    simp [String.toList, String.data_append]
  simp only [hdata, Bool.and_eq_true, decide_eq_true_eq, beq_iff_eq]
  refine ⟨⟨?_, ?_⟩, ?_⟩
  · simp [List.length_append]
    omega
  · rw [List.take_left]
  · rw [← List.append_assoc]
    have hlen : ∀ (xs suf : List Char),
        (xs ++ suf).length - suf.length = xs.length := by
      intro xs suf
      simp [List.length_append]
    rw [hlen, List.drop_left]

theorem lookupD_append {α : Type} (l₁ l₂ : List (String × α)) (k : String) :
    lookupD (l₁ ++ l₂) k
      = ((l₁.find? (fun p => p.1 == k)).or
          (l₂.find? (fun p => p.1 == k))).map (·.2) := by
  unfold lookupD
  rw [List.find?_append]

theorem lookupD_setD {α : Type} (l : List (String × α)) (k : String) (v : α) :
    lookupD (setD l k v) k = some v := by
  unfold setD
  rw [lookupD_append]
  have h1 : (l.filter (fun p => p.1 ≠ k)).find? (fun p => p.1 == k) = none := by
    rw [List.find?_eq_none]
    intro x hx
    have := (List.mem_filter.mp hx).2
    simp_all
  rw [h1]
  simp [List.find?_cons]

theorem lookupD_setD_ne {α : Type} (l : List (String × α)) (k k' : String)
    (v : α) (h : k' ≠ k) :
    lookupD (setD l k v) k' = lookupD l k' := by
  unfold setD
  rw [lookupD_append]
  have h2 : ([(k, v)].find? (fun p => p.1 == k')) = none := by
    simp [List.find?_cons, Ne.symm h]
  rw [h2, Option.or_none]
  refine lookupD_filter_of_ne l _ k' (fun x _ hx => ?_)
  simp [hx]
  exact h

theorem takeWhile_append_not_dot (p q : List Char)
    (h : ∀ x ∈ p, x ≠ '.') :
    (p ++ '.' :: q).takeWhile (· ≠ '.') = p := by
  induction p with
  | nil => simp
  | cons a t ih =>
    simp only [List.cons_append, List.takeWhile_cons]
    rw [if_pos]
    · rw [ih (fun x hx => h x (List.mem_cons_of_mem _ hx))]
    · simp [h a (List.mem_cons_self _ _)]

theorem dropWhile_head_false {α : Type} {p : α → Bool} {l : List α}
    {c : α} {u : List α} (h : l.dropWhile p = c :: u) : p c = false := by
  induction l with
  | nil => simp at h
  | cons a t ih =>
    rw [List.dropWhile_cons] at h
    by_cases hp : p a = true
    · rw [if_pos hp] at h
      exact ih h
    · rw [if_neg hp] at h
      cases h
      simpa using hp

theorem afterLastDot_append (stem ext : List Char) (h : '.' ∉ ext) :
    afterLastDot (stem ++ '.' :: ext) = ext := by
  unfold afterLastDot
  rw [List.reverse_append, List.reverse_cons, List.append_assoc,
    List.singleton_append]
  rw [takeWhile_append_not_dot _ _
    (fun x hx hdot => h (hdot ▸ List.mem_reverse.mp hx))]
  exact List.reverse_reverse ext

/-- Embeds `allowed_file` accepts exactly the filenames of the form
`<stem>.<ext>` whose dot-free final extension lowercases to `"pdf"`. -/
theorem allowed_file_iff (filename : String) :
    allowed_file filename = true ↔
      ∃ stem ext : List Char, filename.toList = stem ++ '.' :: ext ∧
        '.' ∉ ext ∧ ext.map Char.toLower = "pdf".toList := by
  constructor
  · intro h
    have hmem : '.' ∈ filename.toList := by
      have := (Bool.and_eq_true _ _).mp h |>.1
      simpa using this
    have hlower : (afterLastDot filename.toList).map Char.toLower
        = "pdf".toList := by
      have := (Bool.and_eq_true _ _).mp h |>.2
      simpa using this
    set r := filename.toList.reverse with hr
    have hmemr : '.' ∈ r := List.mem_reverse.mpr hmem
    have hdrop : r.dropWhile (· ≠ '.') ≠ [] := by
      intro hnil
      have hall := List.dropWhile_eq_nil_iff.mp hnil '.' hmemr
      simp at hall
    obtain ⟨c, u, hcu⟩ := List.exists_cons_of_ne_nil hdrop
    have hc : c = '.' := by
      have := dropWhile_head_false hcu
      simpa using this
    have hsplit : r = r.takeWhile (· ≠ '.') ++ '.' :: u := by
      conv_lhs => rw [← List.takeWhile_append_dropWhile (· ≠ '.') r]
      rw [hcu, hc]
    refine ⟨u.reverse, (r.takeWhile (· ≠ '.')).reverse, ?_, ?_, ?_⟩
    · have h3 : filename.toList = r.reverse := (List.reverse_reverse _).symm
      rw [h3]
      conv_lhs => rw [hsplit]
      rw [List.reverse_append, List.reverse_cons, List.append_assoc,
        List.singleton_append]
    · intro hx
      have := List.mem_takeWhile_imp (List.mem_reverse.mp hx)
      simp at this
    · have hald : afterLastDot filename.toList
          = (r.takeWhile (· ≠ '.')).reverse := by
        unfold afterLastDot
        rw [← hr]
      rw [← hald]
      exact hlower
  · rintro ⟨stem, ext, hdec, hdot, hlow⟩
    unfold allowed_file
    rw [hdec]
    have h1 : (stem ++ '.' :: ext).contains '.' = true := by
      simp
    have h2 : afterLastDot (stem ++ '.' :: ext) = ext :=
      afterLastDot_append stem ext hdot
    rw [h1, h2]
    simp [hlow]

theorem add_history_entry_docs (d now : String) (s : ServerState) :
    (add_history_entry d now s).docs = s.docs := by
  unfold add_history_entry save_history
  rfl

theorem add_history_entry_renders (d now : String) (s : ServerState) :
    (add_history_entry d now s).renders = s.renders := by
  unfold add_history_entry save_history
  rfl

theorem add_history_entry_metas (d now : String) (s : ServerState) :
    (add_history_entry d now s).metas
      = s.metas.filter (fun p => p.1 ≠ d) := by
  unfold add_history_entry save_history
  rfl

theorem add_history_entry_currentFile (d now : String) (s : ServerState) :
    (add_history_entry d now s).currentFile = s.currentFile := by
  unfold add_history_entry save_history
  rfl

theorem add_history_entry_historyFile (d now : String) (s : ServerState) :
    (add_history_entry d now s).historyFile
      = .parsed (List.insertionSort histGESignedAt (load_history s ++
          [{ doc_id := d, filename := historyFilename d s,
             signed_at := now }])) := by
  unfold add_history_entry save_history
  rfl

theorem get_current_doc_id_congr (s t : ServerState)
    (h : s.currentFile = t.currentFile) :
    get_current_doc_id s = get_current_doc_id t := by
  unfold get_current_doc_id
  rw [h]

theorem clear_current_if_docs (d : String) (s : ServerState) :
    (clear_current_if d s).docs = s.docs := by
  unfold clear_current_if
  cases get_current_doc_id s with
  | none => rfl
  | some cur => by_cases h : cur = d <;> simp [h]

theorem clear_current_if_renders (d : String) (s : ServerState) :
    (clear_current_if d s).renders = s.renders := by
  unfold clear_current_if
  cases get_current_doc_id s with
  | none => rfl
  | some cur => by_cases h : cur = d <;> simp [h]

theorem clear_current_if_metas (d : String) (s : ServerState) :
    (clear_current_if d s).metas = s.metas := by
  unfold clear_current_if
  cases get_current_doc_id s with
  | none => rfl
  | some cur => by_cases h : cur = d <;> simp [h]

theorem clear_current_if_historyFile (d : String) (s : ServerState) :
    (clear_current_if d s).historyFile = s.historyFile := by
  unfold clear_current_if
  cases get_current_doc_id s with
  | none => rfl
  | some cur => by_cases h : cur = d <;> simp [h]

theorem clear_current_if_of_current (d : String) (s : ServerState)
    (h : get_current_doc_id s = some d) :
    (clear_current_if d s).currentFile = .missing := by
  unfold clear_current_if
  rw [h]
  simp

theorem clear_current_if_cases (d : String) (s : ServerState) :
    (clear_current_if d s).currentFile = s.currentFile ∨
      (clear_current_if d s).currentFile = .missing := by
  unfold clear_current_if
  cases get_current_doc_id s with
  | none => exact Or.inl rfl
  | some cur =>
    by_cases h : cur = d
    · simp [h]
    · simp [h]

/-- The success path of `api_sign`, spelled as the composition of the three
state updates the handler performs. -/
theorem api_sign_success_eq (b64 : String → Option Bytes) (d now : String)
    (req : SignRequest) (s : ServerState)
    (hd : validDocId d = true)
    (hdoc : lookupD s.docs d ≠ none)
    (hne : _collect_pages_from_request b64 req ≠ [])
    (hbig : (_collect_pages_from_request b64 req).any
      (fun p => decide (2000 < p.2.length)) = true) :
    api_sign b64 d now req s =
      (.json ⟨200, true, none, some "Dokument został podpisany."⟩,
       cleanup_doc_files d (clear_current_if d (add_history_entry d now s))) := by
  simp [api_sign, safe_doc_id, hd, Option.isNone_iff_eq_none, hdoc,
    List.isEmpty_iff, hne, hbig]

/-- The success path of `upload`, spelled as the sequence of state updates
the handler performs. -/
theorem upload_success_eq (filename : String) (pdf : Pdf)
    (uuidHex now : String) (s : ServerState)
    (hfn : filename ≠ "") (hall : allowed_file filename = true) :
    upload (.file filename pdf) uuidHex now s
      = (.shared (genDocId uuidHex),
         uploadPostState filename pdf uuidHex now s) := by
  simp [upload, hfn, hall, uploadPostState]

/-! ## Claim theorems -/

/-- Claim C6: `safe_doc_id` accepts a doc id exactly when it is non-empty and
all of its characters are lowercase hex digits `0-9a-f`; when it does not,
every route that validates a doc id (`/qr/<doc_id>`, `/sign/<doc_id>`,
`POST /api/sign/<doc_id>`) aborts with HTTP 400 "Invalid doc_id". -/
theorem C6_safe_doc_id_accepts_lowercase_hex (d now : String)
    (s : ServerState) (b64 : String → Option Bytes) (req : SignRequest) :
    (safe_doc_id d = some d ↔ d ≠ "" ∧ ∀ c ∈ d.toList, c ∈ hexDigits) ∧
    (safe_doc_id d = none →
      qr d = .abort 400 "Invalid doc_id" ∧
      (sign d s).1 = .abort 400 "Invalid doc_id" ∧
      (api_sign b64 d now req s).1 = .abort 400 "Invalid doc_id") := by
  constructor
  · rw [← validDocId_iff]
    unfold safe_doc_id
    by_cases h : validDocId d = true <;> simp [h]
  · intro h
    refine ⟨?_, ?_, ?_⟩
    · unfold qr
      rw [h]
    · unfold sign
      rw [h]
    · unfold api_sign
      rw [h]

/-- Witness for C6 at the concrete invalid id `"xyz"` and valid id `"a0"`. -/
theorem C6_safe_doc_id_accepts_lowercase_hex_witness :
    qr "xyz" = .abort 400 "Invalid doc_id" ∧
    safe_doc_id "a0" = some "a0" :=
  ⟨((C6_safe_doc_id_accepts_lowercase_hex "xyz" "t"
      ⟨[], [], [], .missing, .missing⟩ (fun _ => none) (.multipart [])).2
      (by decide)).1,
   (C6_safe_doc_id_accepts_lowercase_hex "a0" "t"
      ⟨[], [], [], .missing, .missing⟩ (fun _ => none) (.multipart [])).1.mpr
      (by decide)⟩

/-- Claim C9: the "current document" and "history" state live in the two flat
JSON files modelled by `ServerState.currentFile` / `ServerState.historyFile`,
and reads degrade gracefully: `load_history` is `[]` when `history.json` is
missing or unparseable, and `get_current_doc_id` is `none` when
`current.json` is missing, unparseable, or holds no non-empty string
`doc_id`. -/
theorem C9_flat_file_reads_degrade_gracefully (s : ServerState) :
    (s.historyFile = .missing → load_history s = []) ∧
    (s.historyFile = .corrupt → load_history s = []) ∧
    (s.currentFile = .missing → get_current_doc_id s = none) ∧
    (s.currentFile = .corrupt → get_current_doc_id s = none) ∧
    (∀ u f, s.currentFile = .parsed none u f → get_current_doc_id s = none) ∧
    (∀ u f, s.currentFile = .parsed (some "") u f →
      get_current_doc_id s = none) := by
  refine ⟨?_, ?_, ?_, ?_, ?_, ?_⟩ <;>
    first
      | (intro h; simp [load_history, get_current_doc_id, h])
      | (intro u f h; simp [get_current_doc_id, h])

/-- Witness for C9 at concrete states exercising each degraded read. -/
theorem C9_flat_file_reads_degrade_gracefully_witness :
    load_history ⟨[], [], [], .missing, .missing⟩ = [] ∧
    load_history ⟨[], [], [], .missing, .corrupt⟩ = [] ∧
    get_current_doc_id ⟨[], [], [], .missing, .missing⟩ = none ∧
    get_current_doc_id ⟨[], [], [], .corrupt, .missing⟩ = none ∧
    get_current_doc_id ⟨[], [], [], .parsed none none none, .missing⟩ = none ∧
    get_current_doc_id
      ⟨[], [], [], .parsed (some "") none none, .missing⟩ = none :=
  ⟨(C9_flat_file_reads_degrade_gracefully _).1 rfl,
   (C9_flat_file_reads_degrade_gracefully _).2.1 rfl,
   (C9_flat_file_reads_degrade_gracefully _).2.2.1 rfl,
   (C9_flat_file_reads_degrade_gracefully _).2.2.2.1 rfl,
   (C9_flat_file_reads_degrade_gracefully _).2.2.2.2.1 none none rfl,
   (C9_flat_file_reads_degrade_gracefully _).2.2.2.2.2 none none rfl⟩

/-- Claim C10: after every `add_history_entry`, the list persisted to
`history.json` is sorted by `signed_at` descending (each entry's timestamp
is ≥ the next one's), whatever order the file previously held. -/
theorem C10_history_persisted_sorted_descending (doc_id now : String)
    (s : ServerState) :
    ∃ items, (add_history_entry doc_id now s).historyFile = .parsed items ∧
      items.Pairwise (fun a b => b.signed_at ≤ a.signed_at) := by
  have hfile : (add_history_entry doc_id now s).historyFile
      = .parsed (List.insertionSort histGESignedAt (load_history s ++
        [{ doc_id := doc_id, filename := historyFilename doc_id s,
           signed_at := now }])) := by
    unfold add_history_entry save_history
    rfl
  have hsorted := List.sorted_insertionSort histGESignedAt (load_history s ++
    [{ doc_id := doc_id, filename := historyFilename doc_id s,
       signed_at := now }])
  exact ⟨_, hfile, hsorted⟩

/-- Claim C7: when a PDF is stored under `doc_id`, rendering returns exactly
one record per page, in page order: the `i`-th record (0-based `idx = i`)
names the PNG `"<doc_id>_p<i+1>.png"` with 1-based page number; when no PDF
is stored, rendering aborts with 404 "PDF not found" (modelled by `none`,
surfaced as the abort by the `/sign/<doc_id>` route). -/
theorem C7_render_one_png_per_page_in_order (doc_id : String)
    (s : ServerState) :
    (lookupD s.docs doc_id = none →
      render_pdf_pages_to_pngs doc_id s = none ∧
      (validDocId doc_id = true →
        (sign doc_id s).1 = .abort 404 "PDF not found")) ∧
    (∀ pdf, lookupD s.docs doc_id = some pdf →
      ∃ recs s', render_pdf_pages_to_pngs doc_id s = some (recs, s') ∧
        recs.length = pdf.numPages ∧
        ∀ i, i < pdf.numPages →
          recs[i]? = some ⟨i, doc_id ++ "_p" ++ toString (i + 1) ++ ".png"⟩) := by
  constructor
  · intro h
    constructor
    · simp [render_pdf_pages_to_pngs, h]
    · intro hv
      simp [sign, safe_doc_id, hv, render_pdf_pages_to_pngs, h]
  · intro pdf h
    unfold render_pdf_pages_to_pngs
    rw [h]
    refine ⟨pageRecs doc_id pdf.numPages, _, rfl, ?_, ?_⟩
    · simp [pageRecs]
    · intro i hi
      simp [pageRecs, List.getElem?_map, List.getElem?_range hi, renderName]

/-- Witness for C7: a two-page document `"ab"` renders to `ab_p1.png`,
`ab_p2.png`; with no stored PDF the render 404s. -/
theorem C7_render_one_png_per_page_in_order_witness :
    (render_pdf_pages_to_pngs "ab" ⟨[], [], [], .missing, .missing⟩ = none ∧
      (validDocId "ab" = true →
        (sign "ab" ⟨[], [], [], .missing, .missing⟩).1
          = .abort 404 "PDF not found")) ∧
    (∃ recs s', render_pdf_pages_to_pngs "ab"
        ⟨[("ab", ⟨2⟩)], [], [], .missing, .missing⟩ = some (recs, s') ∧
      recs.length = 2 ∧
      ∀ i, i < 2 → recs[i]? = some ⟨i, "ab" ++ "_p" ++ toString (i + 1) ++ ".png"⟩) :=
  ⟨(C7_render_one_png_per_page_in_order "ab"
      ⟨[], [], [], .missing, .missing⟩).1 (by decide),
   (C7_render_one_png_per_page_in_order "ab"
      ⟨[("ab", ⟨2⟩)], [], [], .missing, .missing⟩).2 ⟨2⟩ (by decide)⟩

/-- Claim C3: with a valid `doc_id`, the three failure branches of
`POST /api/sign/<doc_id>` return 404 `{ok: false, error: "PDF not found"}`
(no stored PDF), 400 `"No signature data received"` (no collected pages) or
400 `"Signature looks empty"` (every page PNG ≤ 2000 bytes) — and each hands
back the state `s` unchanged: history, current pointer, stored PDFs, renders
and meta are exactly as before. -/
theorem C3_api_sign_failures_change_no_state (b64 : String → Option Bytes)
    (d now : String) (req : SignRequest) (s : ServerState)
    (hd : validDocId d = true) :
    (lookupD s.docs d = none →
      api_sign b64 d now req s
        = (.json ⟨404, false, some "PDF not found", none⟩, s)) ∧
    (lookupD s.docs d ≠ none →
      _collect_pages_from_request b64 req = [] →
      api_sign b64 d now req s
        = (.json ⟨400, false, some "No signature data received", none⟩, s)) ∧
    (lookupD s.docs d ≠ none →
      _collect_pages_from_request b64 req ≠ [] →
      (∀ p ∈ _collect_pages_from_request b64 req, p.2.length ≤ 2000) →
      api_sign b64 d now req s
        = (.json ⟨400, false, some "Signature looks empty", none⟩, s)) := by
  refine ⟨?_, ?_, ?_⟩
  · intro h
    simp [api_sign, safe_doc_id, hd, h]
  · intro h hp
    simp [api_sign, safe_doc_id, hd, Option.isNone_iff_eq_none, h, hp]
  · intro h hp hsmall
    have hany : (_collect_pages_from_request b64 req).any
        (fun p => decide (2000 < p.2.length)) = false := by
      rw [List.any_eq_false]
      intro p hmem
      simpa using Nat.not_lt.mpr (hsmall p hmem)
    simp [api_sign, safe_doc_id, hd, Option.isNone_iff_eq_none, h,
      List.isEmpty_iff, hp, hany]

/-- Witness for C3: each failure branch at a concrete state and request. -/
theorem C3_api_sign_failures_change_no_state_witness :
    (api_sign (fun _ => none) "ff" "t" (.multipart [])
        ⟨[("ab", ⟨1⟩)], [], [], .missing, .missing⟩
      = (.json ⟨404, false, some "PDF not found", none⟩,
         ⟨[("ab", ⟨1⟩)], [], [], .missing, .missing⟩)) ∧
    (api_sign (fun _ => none) "ab" "t" (.multipart [])
        ⟨[("ab", ⟨1⟩)], [], [], .missing, .missing⟩
      = (.json ⟨400, false, some "No signature data received", none⟩,
         ⟨[("ab", ⟨1⟩)], [], [], .missing, .missing⟩)) ∧
    (api_sign (fun _ => none) "ab" "t" (.multipart [⟨"page_0", [7]⟩])
        ⟨[("ab", ⟨1⟩)], [], [], .missing, .missing⟩
      = (.json ⟨400, false, some "Signature looks empty", none⟩,
         ⟨[("ab", ⟨1⟩)], [], [], .missing, .missing⟩)) :=
  ⟨(C3_api_sign_failures_change_no_state (fun _ => none) "ff" "t"
      (.multipart []) ⟨[("ab", ⟨1⟩)], [], [], .missing, .missing⟩
      (by decide)).1 (by decide),
   (C3_api_sign_failures_change_no_state (fun _ => none) "ab" "t"
      (.multipart []) ⟨[("ab", ⟨1⟩)], [], [], .missing, .missing⟩
      (by decide)).2.1 (by decide) (by decide),
   (C3_api_sign_failures_change_no_state (fun _ => none) "ab" "t"
      (.multipart [⟨"page_0", [7]⟩])
      ⟨[("ab", ⟨1⟩)], [], [], .missing, .missing⟩
      (by decide)).2.2 (by decide) (by decide) (by decide)⟩

/-- Claim C1: a `POST /api/sign/<doc_id>` with a valid id, a stored PDF and at
least one collected overlay PNG above 2000 bytes answers 200 with
`{ok: true}` and records exactly one new "signed" event: the persisted
history is a permutation of the old list plus one entry carrying the
`doc_id`, the filename (`meta`'s `original_filename`, and `"<doc_id>.pdf"`
when no meta file exists) and the signing timestamp. -/
theorem C1_api_sign_success_records_one_signed_event
    (b64 : String → Option Bytes) (d now : String) (req : SignRequest)
    (s : ServerState)
    (hd : validDocId d = true)
    (hdoc : lookupD s.docs d ≠ none)
    (hne : _collect_pages_from_request b64 req ≠ [])
    (hbig : ∃ p ∈ _collect_pages_from_request b64 req, 2000 < p.2.length) :
    ∃ s', api_sign b64 d now req s
        = (.json ⟨200, true, none, some "Dokument został podpisany."⟩, s') ∧
      ∃ items, s'.historyFile = .parsed items ∧
        items.Perm (load_history s ++
          [{ doc_id := d, filename := historyFilename d s,
             signed_at := now }]) ∧
        items.length = (load_history s).length + 1 ∧
        (lookupD s.metas d = none → historyFilename d s = d ++ ".pdf") ∧
        (∀ f, lookupD s.metas d = some (.parsed (some f)) → f ≠ "" →
          historyFilename d s = f) := by
  have hany : (_collect_pages_from_request b64 req).any
      (fun p => decide (2000 < p.2.length)) = true := by
    rw [List.any_eq_true]
    obtain ⟨p, hp, hlen⟩ := hbig
    exact ⟨p, hp, by simpa using hlen⟩
  refine ⟨_, api_sign_success_eq b64 d now req s hd hdoc hne hany, ?_⟩
  have hhist : (cleanup_doc_files d
      (clear_current_if d (add_history_entry d now s))).historyFile
      = .parsed (List.insertionSort histGESignedAt (load_history s ++
          [{ doc_id := d, filename := historyFilename d s,
             signed_at := now }])) := by
    show (clear_current_if d (add_history_entry d now s)).historyFile = _
    rw [clear_current_if_historyFile, add_history_entry_historyFile]
  refine ⟨_, hhist, List.perm_insertionSort _ _, ?_, ?_, ?_⟩
  · rw [List.length_insertionSort, List.length_append]
    rfl
  · intro h
    unfold historyFilename
    rw [h]
  · intro f h hf
    unfold historyFilename
    rw [h]
    simp [hf]

/-- Witness for C1: a concrete successful sign of doc `"ab"` (one 2001-byte
overlay), with the meta file recording `"umowa.pdf"`. -/
theorem C1_api_sign_success_records_one_signed_event_witness :
    ∃ s', api_sign (fun _ => none) "ab" "2026-01-02T03:04:05+00:00"
        (.multipart [⟨"page_0", List.replicate 2001 7⟩])
        ⟨[("ab", ⟨1⟩)], ["ab_p1.png"], [("ab", .parsed (some "umowa.pdf"))],
          .missing, .missing⟩
        = (.json ⟨200, true, none, some "Dokument został podpisany."⟩, s') ∧
      ∃ items, s'.historyFile = .parsed items ∧
        items.Perm (load_history ⟨[("ab", ⟨1⟩)], ["ab_p1.png"],
            [("ab", .parsed (some "umowa.pdf"))], .missing, .missing⟩ ++
          [{ doc_id := "ab",
             filename := historyFilename "ab" ⟨[("ab", ⟨1⟩)], ["ab_p1.png"],
               [("ab", .parsed (some "umowa.pdf"))], .missing, .missing⟩,
             signed_at := "2026-01-02T03:04:05+00:00" }]) ∧
        items.length = (load_history ⟨[("ab", ⟨1⟩)], ["ab_p1.png"],
            [("ab", .parsed (some "umowa.pdf"))], .missing,
            .missing⟩).length + 1 ∧
        (lookupD [("ab", MetaState.parsed (some "umowa.pdf"))] "ab" = none →
          historyFilename "ab" ⟨[("ab", ⟨1⟩)], ["ab_p1.png"],
            [("ab", .parsed (some "umowa.pdf"))], .missing, .missing⟩
            = "ab" ++ ".pdf") ∧
        (∀ f, lookupD [("ab", MetaState.parsed (some "umowa.pdf"))] "ab"
            = some (.parsed (some f)) → f ≠ "" →
          historyFilename "ab" ⟨[("ab", ⟨1⟩)], ["ab_p1.png"],
            [("ab", .parsed (some "umowa.pdf"))], .missing, .missing⟩ = f) :=
  by
  have hcollect : _collect_pages_from_request (fun _ => none)
      (.multipart [⟨"page_0", List.replicate 2001 7⟩])
      = [((0 : Int), List.replicate 2001 7)] := rfl
  refine C1_api_sign_success_records_one_signed_event (fun _ => none) "ab"
    "2026-01-02T03:04:05+00:00"
    (.multipart [⟨"page_0", List.replicate 2001 7⟩])
    ⟨[("ab", ⟨1⟩)], ["ab_p1.png"], [("ab", .parsed (some "umowa.pdf"))],
      .missing, .missing⟩
    (by decide) (by decide) ?_ ?_
  · rw [hcollect]
    exact List.cons_ne_nil _ _
  · rw [hcollect]
    exact ⟨((0 : Int), List.replicate 2001 7), List.mem_singleton.mpr rfl,
      by rw [List.length_replicate]; omega⟩

/-- Claim C4: after a successful sign the document is ephemeral — its stored
PDF is gone, every rendered page PNG of the doc (anything matching the
`<doc_id>_p*.png` glob, hence every `renderName`) is gone, its meta file
is gone, and when the doc was the current one the pointer file is deleted;
the freshly recorded history entry is what remains. -/
theorem C4_successful_sign_leaves_only_history
    (b64 : String → Option Bytes) (d now : String) (req : SignRequest)
    (s : ServerState)
    (hd : validDocId d = true)
    (hdoc : lookupD s.docs d ≠ none)
    (hne : _collect_pages_from_request b64 req ≠ [])
    (hbig : ∃ p ∈ _collect_pages_from_request b64 req, 2000 < p.2.length) :
    ∃ s', api_sign b64 d now req s
        = (.json ⟨200, true, none, some "Dokument został podpisany."⟩, s') ∧
      lookupD s'.docs d = none ∧
      (∀ n ∈ s'.renders, renderGlobMatch d n = false) ∧
      (∀ k, renderName d k ∉ s'.renders) ∧
      lookupD s'.metas d = none ∧
      (get_current_doc_id s = some d → s'.currentFile = .missing) ∧
      ∃ items, s'.historyFile = .parsed items ∧
        ({ doc_id := d, filename := historyFilename d s,
           signed_at := now } : HistEntry) ∈ items := by
  have hany : (_collect_pages_from_request b64 req).any
      (fun p => decide (2000 < p.2.length)) = true := by
    rw [List.any_eq_true]
    obtain ⟨p, hp, hlen⟩ := hbig
    exact ⟨p, hp, by simpa using hlen⟩
  refine ⟨_, api_sign_success_eq b64 d now req s hd hdoc hne hany,
    ?_, ?_, ?_, ?_, ?_, ?_⟩
  · exact lookupD_filter_self _ d
  · intro n hn
    have := (List.mem_filter.mp hn).2
    simpa using this
  · intro k hk
    have := (List.mem_filter.mp hk).2
    rw [renderGlobMatch_renderName d k] at this
    simp at this
  · exact lookupD_filter_self _ d
  · intro hcur
    show (clear_current_if d (add_history_entry d now s)).currentFile = _
    refine clear_current_if_of_current d _ ?_
    rw [get_current_doc_id_congr _ s (add_history_entry_currentFile d now s)]
    exact hcur
  · have hhist : (cleanup_doc_files d
        (clear_current_if d (add_history_entry d now s))).historyFile
        = .parsed (List.insertionSort histGESignedAt (load_history s ++
            [{ doc_id := d, filename := historyFilename d s,
               signed_at := now }])) := by
      show (clear_current_if d (add_history_entry d now s)).historyFile = _
      rw [clear_current_if_historyFile, add_history_entry_historyFile]
    refine ⟨_, hhist, ?_⟩
    rw [(List.perm_insertionSort histGESignedAt _).mem_iff]
    exact List.mem_append_right _ (List.mem_singleton.mpr rfl)

/-- Witness for C4: the concrete successful sign of doc `"cd"` that was the
current document. -/
theorem C4_successful_sign_leaves_only_history_witness :
    ∃ s', api_sign (fun _ => none) "cd" "2026-01-02T03:04:06+00:00"
        (.multipart [⟨"page_0", List.replicate 2001 9⟩])
        ⟨[("cd", ⟨1⟩)], ["cd_p1.png"], [("cd", .parsed (some "x.pdf"))],
          .parsed (some "cd") (some "t0") (some "x.pdf"), .missing⟩
        = (.json ⟨200, true, none, some "Dokument został podpisany."⟩, s') ∧
      lookupD s'.docs "cd" = none ∧
      (∀ n ∈ s'.renders, renderGlobMatch "cd" n = false) ∧
      (∀ k, renderName "cd" k ∉ s'.renders) ∧
      lookupD s'.metas "cd" = none ∧
      (get_current_doc_id ⟨[("cd", ⟨1⟩)], ["cd_p1.png"],
          [("cd", .parsed (some "x.pdf"))],
          .parsed (some "cd") (some "t0") (some "x.pdf"), .missing⟩
        = some "cd" → s'.currentFile = .missing) ∧
      ∃ items, s'.historyFile = .parsed items ∧
        ({ doc_id := "cd",
           filename := historyFilename "cd" ⟨[("cd", ⟨1⟩)], ["cd_p1.png"],
             [("cd", .parsed (some "x.pdf"))],
             .parsed (some "cd") (some "t0") (some "x.pdf"), .missing⟩,
           signed_at := "2026-01-02T03:04:06+00:00" } : HistEntry)
          ∈ items := by
  have hcollect : _collect_pages_from_request (fun _ => none)
      (.multipart [⟨"page_0", List.replicate 2001 9⟩])
      = [((0 : Int), List.replicate 2001 9)] := rfl
  refine C4_successful_sign_leaves_only_history (fun _ => none) "cd"
    "2026-01-02T03:04:06+00:00"
    (.multipart [⟨"page_0", List.replicate 2001 9⟩])
    ⟨[("cd", ⟨1⟩)], ["cd_p1.png"], [("cd", .parsed (some "x.pdf"))],
      .parsed (some "cd") (some "t0") (some "x.pdf"), .missing⟩
    (by decide) (by decide) ?_ ?_
  · rw [hcollect]
    exact List.cons_ne_nil _ _
  · rw [hcollect]
    exact ⟨((0 : Int), List.replicate 2001 9), List.mem_singleton.mpr rfl,
      by rw [List.length_replicate]; omega⟩

/-- Claim C2, counterexample: at a concrete successful sign request the
handler answers with the JSON confirmation message — not a download — and
the resulting state holds no file at all (no composited PDF, no
HMAC-tagged artifact, nothing but the history entry): the signing flow of
this code composites nothing and keeps no signed copy. -/
theorem C2_counterexample_no_signed_artifact :
    (api_sign (fun _ => none) "ab" "2026-01-02T03:04:05+00:00"
        (.multipart [⟨"page_0", List.replicate 2001 7⟩])
        ⟨[("ab", ⟨1⟩)], ["ab_p1.png"], [("ab", .parsed (some "umowa.pdf"))],
          .parsed (some "ab") (some "t0") (some "umowa.pdf"), .missing⟩).1
      = .json ⟨200, true, none, some "Dokument został podpisany."⟩ ∧
    (api_sign (fun _ => none) "ab" "2026-01-02T03:04:05+00:00"
        (.multipart [⟨"page_0", List.replicate 2001 7⟩])
        ⟨[("ab", ⟨1⟩)], ["ab_p1.png"], [("ab", .parsed (some "umowa.pdf"))],
          .parsed (some "ab") (some "t0") (some "umowa.pdf"), .missing⟩).2
      = ⟨[], [], [], .missing,
          .parsed [⟨"ab", "umowa.pdf", "2026-01-02T03:04:05+00:00"⟩]⟩ := by
  have hcollect : _collect_pages_from_request (fun _ => none)
      (.multipart [⟨"page_0", List.replicate 2001 7⟩])
      = [((0 : Int), List.replicate 2001 7)] := rfl
  have hne : _collect_pages_from_request (fun _ => none)
      (.multipart [⟨"page_0", List.replicate 2001 7⟩]) ≠ [] := by
    rw [hcollect]
    exact List.cons_ne_nil _ _
  have hany : (_collect_pages_from_request (fun _ => none)
      (.multipart [⟨"page_0", List.replicate 2001 7⟩])).any
      (fun p => decide (2000 < p.2.length)) = true := by
    rw [hcollect]
    show (decide (2000 < (List.replicate 2001 7).length) || false) = true
    rw [List.length_replicate]
    rfl
  have h := api_sign_success_eq (fun _ => none) "ab"
    "2026-01-02T03:04:05+00:00"
    (.multipart [⟨"page_0", List.replicate 2001 7⟩])
    ⟨[("ab", ⟨1⟩)], ["ab_p1.png"], [("ab", .parsed (some "umowa.pdf"))],
      .parsed (some "ab") (some "t0") (some "umowa.pdf"), .missing⟩
    (by decide) (by decide) hne hany
  rw [h]
  exact ⟨rfl, rfl⟩

/-- Claim C2, amended: the signing flow produces no artifact: a successful
`POST /api/sign/<doc_id>` returns the JSON confirmation (never a file), no
entry is added to `docs/`, `renders/` or `meta/` (each directory only
shrinks), the current pointer is at most cleared, and the only durable
effect is the history list written to `history.json`. -/
theorem C2_amended_sign_flow_writes_no_file
    (b64 : String → Option Bytes) (d now : String) (req : SignRequest)
    (s : ServerState)
    (hd : validDocId d = true)
    (hdoc : lookupD s.docs d ≠ none)
    (hne : _collect_pages_from_request b64 req ≠ [])
    (hbig : ∃ p ∈ _collect_pages_from_request b64 req, 2000 < p.2.length) :
    ∃ s', api_sign b64 d now req s
        = (.json ⟨200, true, none, some "Dokument został podpisany."⟩, s') ∧
      (∀ x ∈ s'.docs, x ∈ s.docs) ∧
      (∀ n ∈ s'.renders, n ∈ s.renders) ∧
      (∀ m ∈ s'.metas, m ∈ s.metas) ∧
      (s'.currentFile = s.currentFile ∨ s'.currentFile = .missing) ∧
      ∃ items, s'.historyFile = .parsed items := by
  have hany : (_collect_pages_from_request b64 req).any
      (fun p => decide (2000 < p.2.length)) = true := by
    rw [List.any_eq_true]
    obtain ⟨p, hp, hlen⟩ := hbig
    exact ⟨p, hp, by simpa using hlen⟩
  refine ⟨_, api_sign_success_eq b64 d now req s hd hdoc hne hany,
    ?_, ?_, ?_, ?_, ?_⟩
  · intro x hx
    have hx' := (List.mem_filter.mp hx).1
    rw [clear_current_if_docs, add_history_entry_docs] at hx'
    exact hx'
  · intro n hn
    have hn' := (List.mem_filter.mp hn).1
    rw [clear_current_if_renders, add_history_entry_renders] at hn'
    exact hn'
  · intro m hm
    have hm' := (List.mem_filter.mp hm).1
    rw [clear_current_if_metas, add_history_entry_metas] at hm'
    exact (List.mem_filter.mp hm').1
  · rcases clear_current_if_cases d (add_history_entry d now s) with h | h
    · left
      show (clear_current_if d (add_history_entry d now s)).currentFile = _
      rw [h, add_history_entry_currentFile]
    · right
      exact h
  · refine ⟨List.insertionSort histGESignedAt (load_history s ++
      [(⟨d, historyFilename d s, now⟩ : HistEntry)]), ?_⟩
    show (clear_current_if d (add_history_entry d now s)).historyFile = _
    rw [clear_current_if_historyFile, add_history_entry_historyFile]

/-- Witness for the amended C2 at a concrete successful sign of `"ef"`. -/
theorem C2_amended_sign_flow_writes_no_file_witness :
    ∃ s', api_sign (fun _ => none) "ef" "2026-01-03T00:00:00+00:00"
        (.multipart [⟨"page_0", List.replicate 2001 1⟩])
        ⟨[("ef", ⟨1⟩)], ["ef_p1.png"], [("ef", .parsed (some "y.pdf"))],
          .missing, .missing⟩
        = (.json ⟨200, true, none, some "Dokument został podpisany."⟩, s') ∧
      (∀ x ∈ s'.docs, x ∈ [(("ef" : String), (⟨1⟩ : Pdf))]) ∧
      (∀ n ∈ s'.renders, n ∈ ["ef_p1.png"]) ∧
      (∀ m ∈ s'.metas, m ∈ [(("ef" : String), MetaState.parsed (some "y.pdf"))]) ∧
      (s'.currentFile = .missing ∨ s'.currentFile = .missing) ∧
      ∃ items, s'.historyFile = .parsed items := by
  have hcollect : _collect_pages_from_request (fun _ => none)
      (.multipart [⟨"page_0", List.replicate 2001 1⟩])
      = [((0 : Int), List.replicate 2001 1)] := rfl
  refine C2_amended_sign_flow_writes_no_file (fun _ => none) "ef"
    "2026-01-03T00:00:00+00:00"
    (.multipart [⟨"page_0", List.replicate 2001 1⟩])
    ⟨[("ef", ⟨1⟩)], ["ef_p1.png"], [("ef", .parsed (some "y.pdf"))],
      .missing, .missing⟩
    (by decide) (by decide) ?_ ?_
  · rw [hcollect]
    exact List.cons_ne_nil _ _
  · rw [hcollect]
    exact ⟨((0 : Int), List.replicate 2001 1), List.mem_singleton.mpr rfl,
      by rw [List.length_replicate]; omega⟩

/-- Claim C8: `POST /upload` aborts with 400 when the `file` field is missing,
when the selected file has an empty filename, and when the filename fails
the PDF-extension check — which accepts exactly the names containing a dot
whose final extension lowercases to `"pdf"`; only files passing the check
are saved (a `shared` result implies the check passed and the PDF is
stored under the new id). -/
theorem C8_upload_rejects_non_pdf (uuidHex now : String) (s : ServerState)
    (filename : String) (pdf : Pdf) :
    (upload .noFileField uuidHex now s = (.abort 400 "No file field", s)) ∧
    (upload (.file "" pdf) uuidHex now s
      = (.abort 400 "No file selected", s)) ∧
    (filename ≠ "" → allowed_file filename = false →
      upload (.file filename pdf) uuidHex now s
        = (.abort 400 "Only PDF allowed", s)) ∧
    (allowed_file filename = true ↔
      ∃ stem ext : List Char, filename.toList = stem ++ '.' :: ext ∧
        '.' ∉ ext ∧ ext.map Char.toLower = "pdf".toList) ∧
    (∀ d s', upload (.file filename pdf) uuidHex now s = (.shared d, s') →
      allowed_file filename = true ∧ lookupD s'.docs d = some pdf) := by
  refine ⟨rfl, ?_, ?_, allowed_file_iff filename, ?_⟩
  · simp [upload]
  · intro hfn hall
    simp [upload, hfn, hall]
  · intro d s' hs
    by_cases hfn : filename = ""
    · rw [hfn] at hs
      simp [upload] at hs
    · by_cases hall : allowed_file filename = true
      · refine ⟨hall, ?_⟩
        rw [upload_success_eq filename pdf uuidHex now s hfn hall,
          Prod.mk.injEq] at hs
        obtain ⟨h1, h2⟩ := hs
        cases h1
        rw [← h2]
        show lookupD (setD _ (genDocId uuidHex) pdf) (genDocId uuidHex)
          = some pdf
        exact lookupD_setD _ _ _
      · rw [Bool.not_eq_true] at hall
        simp [upload, hfn, hall] at hs

/-- Witness for C8: the concrete rejection of `doc.txt`, acceptance of
`x.PDF`, rejection of `x.pdf.txt`, and a saved upload of `x.pdf`. -/
theorem C8_upload_rejects_non_pdf_witness :
    (upload (.file "doc.txt" ⟨1⟩) "0123456789abcdef0123456789abcdef" "t"
        ⟨[], [], [], .missing, .missing⟩
      = (.abort 400 "Only PDF allowed", ⟨[], [], [], .missing, .missing⟩)) ∧
    allowed_file "x.PDF" = true ∧
    (upload (.file "x.pdf.txt" ⟨1⟩) "0123456789abcdef0123456789abcdef" "t"
        ⟨[], [], [], .missing, .missing⟩
      = (.abort 400 "Only PDF allowed", ⟨[], [], [], .missing, .missing⟩)) ∧
    (allowed_file "x.pdf" = true ∧
      lookupD (upload (.file "x.pdf" ⟨1⟩) "0123456789abcdef0123456789abcdef"
        "t" ⟨[], [], [], .missing, .missing⟩).2.docs "0123456789ab"
        = some ⟨1⟩) :=
  ⟨(C8_upload_rejects_non_pdf "0123456789abcdef0123456789abcdef" "t"
      ⟨[], [], [], .missing, .missing⟩ "doc.txt" ⟨1⟩).2.2.1
      (by decide) (by decide),
   (C8_upload_rejects_non_pdf "0123456789abcdef0123456789abcdef" "t"
      ⟨[], [], [], .missing, .missing⟩ "x.PDF" ⟨1⟩).2.2.2.1.mpr
      ⟨['x'], ['P', 'D', 'F'], by decide, by decide, by decide⟩,
   (C8_upload_rejects_non_pdf "0123456789abcdef0123456789abcdef" "t"
      ⟨[], [], [], .missing, .missing⟩ "x.pdf.txt" ⟨1⟩).2.2.1
      (by decide) (by decide),
   (C8_upload_rejects_non_pdf "0123456789abcdef0123456789abcdef" "t"
      ⟨[], [], [], .missing, .missing⟩ "x.pdf" ⟨1⟩).2.2.2.2
      "0123456789ab" _ rfl⟩

/-- Claim C5: a successful `POST /upload` draws a fresh 12-character id from
the uuid hex, cleans up the previous current document's PDF, renders and
meta first, saves the new PDF, and points `current.json` at the new id with
the original filename and the update timestamp — so `/sign/current` (and
the QR code that encodes it) targets the most recently uploaded document. -/
theorem C5_upload_points_current_at_fresh_doc
    (filename : String) (pdf : Pdf) (uuidHex now : String) (s : ServerState)
    (hfn : filename ≠ "")
    (hall : allowed_file filename = true)
    (hlen : uuidHex.toList.length = 32)
    (hhex : ∀ c ∈ uuidHex.toList, c ∈ hexDigits) :
    ∃ s', upload (.file filename pdf) uuidHex now s
        = (.shared (genDocId uuidHex), s') ∧
      (genDocId uuidHex).toList.length = 12 ∧
      validDocId (genDocId uuidHex) = true ∧
      s'.currentFile
        = .parsed (some (genDocId uuidHex)) (some now) (some filename) ∧
      get_current_doc_id s' = some (genDocId uuidHex) ∧
      lookupD s'.docs (genDocId uuidHex) = some pdf ∧
      (∀ old, get_current_doc_id s = some old → old ≠ genDocId uuidHex →
        lookupD s'.docs old = none ∧
        (∀ n ∈ s'.renders, renderGlobMatch old n = false) ∧
        lookupD s'.metas old = none) ∧
      (sign_current s').1 = .page (genDocId uuidHex)
        (pageRecs (genDocId uuidHex) pdf.numPages) := by
  have hdlist : (genDocId uuidHex).toList = uuidHex.toList.take 12 := rfl
  have hdlen : (genDocId uuidHex).toList.length = 12 := by
    rw [hdlist, List.length_take, hlen]
    norm_num
  have hdne : genDocId uuidHex ≠ "" := by
    intro h
    rw [h] at hdlen
    simp at hdlen
  have hdvalid : validDocId (genDocId uuidHex) = true := by
    rw [validDocId_iff]
    exact ⟨hdne, fun c hc => hhex c (List.mem_of_mem_take (hdlist ▸ hc))⟩
  have hcurf : (uploadPostState filename pdf uuidHex now s).currentFile
      = .parsed (some (genDocId uuidHex)) (some now) (some filename) := by
    simp [uploadPostState, set_current_doc_id, hfn]
  have hget : get_current_doc_id (uploadPostState filename pdf uuidHex now s)
      = some (genDocId uuidHex) := by
    unfold get_current_doc_id
    rw [hcurf]
    simp [hdne, safe_doc_id, hdvalid]
  have hlook : lookupD (uploadPostState filename pdf uuidHex now s).docs
      (genDocId uuidHex) = some pdf := by
    show lookupD (setD _ (genDocId uuidHex) pdf) (genDocId uuidHex)
      = some pdf
    exact lookupD_setD _ _ _
  refine ⟨uploadPostState filename pdf uuidHex now s,
    upload_success_eq filename pdf uuidHex now s hfn hall, hdlen, hdvalid,
    hcurf, hget, hlook, ?_, ?_⟩
  · intro old hold hne
    have hdocs : (uploadPostState filename pdf uuidHex now s).docs
        = setD (cleanup_doc_files old s).docs (genDocId uuidHex) pdf := by
      simp only [uploadPostState, set_current_doc_id, hold]
    have hmetas : (uploadPostState filename pdf uuidHex now s).metas
        = setD (cleanup_doc_files old s).metas (genDocId uuidHex)
            (.parsed (some filename)) := by
      simp only [uploadPostState, set_current_doc_id, hold]
    have hrenders : (uploadPostState filename pdf uuidHex now s).renders
        = (cleanup_doc_files old s).renders := by
      simp only [uploadPostState, set_current_doc_id, hold]
    refine ⟨?_, ?_, ?_⟩
    · rw [hdocs, lookupD_setD_ne _ _ _ _ hne]
      exact lookupD_filter_self _ old
    · intro n hn
      rw [hrenders] at hn
      have := (List.mem_filter.mp hn).2
      simpa using this
    · rw [hmetas, lookupD_setD_ne _ _ _ _ hne]
      exact lookupD_filter_self _ old
  · simp [sign_current, hget, sign, safe_doc_id, hdvalid,
      render_pdf_pages_to_pngs, hlook]

/-- Witness for C5: a concrete upload of `x.pdf` over an empty state with a
fixed uuid hex string. -/
theorem C5_upload_points_current_at_fresh_doc_witness :
    ∃ s', upload (.file "x.pdf" ⟨2⟩) "0123456789abcdef0123456789abcdef"
        "2026-01-04T00:00:00+00:00" ⟨[], [], [], .missing, .missing⟩
        = (.shared (genDocId "0123456789abcdef0123456789abcdef"), s') ∧
      (genDocId "0123456789abcdef0123456789abcdef").toList.length = 12 ∧
      validDocId (genDocId "0123456789abcdef0123456789abcdef") = true ∧
      s'.currentFile
        = .parsed (some (genDocId "0123456789abcdef0123456789abcdef"))
            (some "2026-01-04T00:00:00+00:00") (some "x.pdf") ∧
      get_current_doc_id s'
        = some (genDocId "0123456789abcdef0123456789abcdef") ∧
      lookupD s'.docs (genDocId "0123456789abcdef0123456789abcdef")
        = some ⟨2⟩ ∧
      (∀ old, get_current_doc_id ⟨[], [], [], .missing, .missing⟩ = some old →
        old ≠ genDocId "0123456789abcdef0123456789abcdef" →
        lookupD s'.docs old = none ∧
        (∀ n ∈ s'.renders, renderGlobMatch old n = false) ∧
        lookupD s'.metas old = none) ∧
      (sign_current s').1 = .page (genDocId "0123456789abcdef0123456789abcdef")
        (pageRecs (genDocId "0123456789abcdef0123456789abcdef") 2) :=
  C5_upload_points_current_at_fresh_doc "x.pdf" ⟨2⟩
    "0123456789abcdef0123456789abcdef" "2026-01-04T00:00:00+00:00"
    ⟨[], [], [], .missing, .missing⟩
    (by decide) (by decide) (by decide) (by decide)

end PdfSignDemo
